/-
Verification of the scoring and fair-value estimation core of the
michael-stock-analyzer repository.

The Python sources are shallowly embedded: numeric values (Python floats)
are modelled as rationals `ℚ`, `None`-able fields as `Option ℚ`, Python's
`int(...)` conversion as truncation toward zero, and Python's truthiness
of a number (`if x:`) as `x ≠ 0`.  Display-only rounding (`round(x, 2)`)
of output record fields is omitted: theorems about those fields state
exact-value or interval facts about the unrounded quantities.
-/
import Mathlib

/-- Python `x if x is not None else 0`, i.e. `safe_get(info, key, 0)` /
`data.get(k, 0) or 0` for numeric fields (`0 or 0` is `0` either way). -/
def orZero (v : Option ℚ) : ℚ := v.getD 0

/-- Python `a or b` on numbers: `a` when truthy (nonzero), else `b`. -/
def pyOr (a b : ℚ) : ℚ := if a = 0 then b else a

/-- Python `int(q)`: truncation toward zero. -/
def pyint (q : ℚ) : ℤ := if 0 ≤ q then ⌊q⌋ else ⌈q⌉

/-- `to_pct` from `api/scan.py` / `api/analyze/[symbol].py`: `None → 0`;
a value with `abs(val) > 10` is returned unchanged (assumed already a
percentage); otherwise it is multiplied by 100. -/
def to_pct (v : Option ℚ) : ℚ :=
  match v with
  | none => 0
  | some val => if 10 < |val| then val else val * 100

/-- Python `needle in hay` on strings (substring containment). -/
def strContains (hay needle : String) : Bool :=
  (List.range (hay.length + 1)).any fun i => needle.isPrefixOf (hay.drop i)

/-- The yfinance `info` record: the fields the scoring core reads.
Any field may be absent (`None`). -/
structure Info where
  currentPrice : Option ℚ := none
  regularMarketPrice : Option ℚ := none
  trailingEps : Option ℚ := none
  forwardEps : Option ℚ := none
  trailingPE : Option ℚ := none
  forwardPE : Option ℚ := none
  targetMeanPrice : Option ℚ := none
  earningsGrowth : Option ℚ := none
  revenueGrowth : Option ℚ := none
  returnOnAssets : Option ℚ := none
  returnOnEquity : Option ℚ := none
  totalCash : Option ℚ := none
  totalDebt : Option ℚ := none
  freeCashflow : Option ℚ := none
  profitMargins : Option ℚ := none
  priceToSalesTrailing12Months : Option ℚ := none
  marketCap : Option ℚ := none
  netIncomeToCommon : Option ℚ := none
  bookValue : Option ℚ := none
  sharesOutstanding : Option ℚ := none
  sector : Option String := none
  longName : Option String := none
  shortName : Option String := none
deriving DecidableEq

/-! ### Fair value estimator (`calculate_fair_value` in `api/scan.py`,
identically rebuilt inline in `build_stock_result` of
`api/analyze/[symbol].py`).  Each valuation method is embedded as a
standalone `Option ℚ` function returning `none` when its precondition
fails; `fairValuesList` assembles them in source order. -/

/-- Method 1: analyst consensus target, used as-is when truthy and positive. -/
def fvMethod1 (info : Info) : Option ℚ :=
  let tp := orZero info.targetMeanPrice
  if tp ≠ 0 ∧ 0 < tp then some tp else none

/-- Method 2: forward-P/E model `eps * min(forward_pe * 1.2, 30)`. -/
def fvMethod2 (info : Info) : Option ℚ :=
  let eps := orZero info.trailingEps
  let fpe := orZero info.forwardPE
  if fpe ≠ 0 ∧ 0 < fpe ∧ eps ≠ 0 ∧ 0 < eps then
    some (eps * min (fpe * (6/5)) 30) else none

/-- Method 3 (PEG based): when `earningsGrowth` is truthy positive and EPS
truthy positive, `gp = eg*100 if eg < 1 else eg`, `fv = eps * min(gp, 40)`,
appended only when `fv > 0`. -/
def fvMethod3 (info : Info) : Option ℚ :=
  let eps := orZero info.trailingEps
  match info.earningsGrowth with
  | none => none
  | some eg =>
    if eg ≠ 0 ∧ 0 < eg ∧ eps ≠ 0 ∧ 0 < eps then
      let gp := if eg < 1 then eg * 100 else eg
      let fv := eps * min gp 40
      if 0 < fv then some fv else none
    else none

/-- Method 4: trailing-P/E heuristic: `price*1.1` when `0 < pe < 25`,
`price*0.95` when `pe > 25` (both need `price > 0`). -/
def fvMethod4 (info : Info) (price : ℚ) : Option ℚ :=
  let pe := orZero info.trailingPE
  if pe ≠ 0 ∧ 0 < pe ∧ pe < 25 ∧ 0 < price then some (price * (11/10))
  else if pe ≠ 0 ∧ 25 < pe ∧ 0 < price then some (price * (19/20))
  else none

/-- Method 5 (sector-multiple fallback), only consulted when no earlier
method fired: `eps * (25 | 20 | 18)` by sector substring. -/
def fvMethod5 (info : Info) : Option ℚ :=
  let eps := orZero info.trailingEps
  if eps ≠ 0 ∧ 0 < eps then
    let sector := info.sector.getD ""
    if strContains sector "Technology" then some (eps * 25)
    else if strContains sector "Consumer" then some (eps * 20)
    else some (eps * 18)
  else none

/-- The `fair_values` list built by `calculate_fair_value`, in append
order: methods 1–4, then the sector fallback when the list is empty. -/
def fairValuesList (info : Info) (price : ℚ) : List ℚ :=
  let l := ([fvMethod1 info, fvMethod2 info, fvMethod3 info,
             fvMethod4 info price] : List (Option ℚ)).reduceOption
  if l = [] then
    match fvMethod5 info with
    | some v => [v]
    | none => []
  else l

/-- `calculate_fair_value(info, price)` from `api/scan.py`:
mean of the fired methods, falling back to `price`. -/
def calculate_fair_value (info : Info) (price : ℚ) : ℚ :=
  let fvs := fairValuesList info price
  if fvs ≠ [] then fvs.sum / fvs.length else price

/-! ### Proportional scorer (`calculate_score` in `api/scan.py`) -/

/-- Integer clamp `max lo (min hi x)`. -/
def clamp (lo hi x : ℤ) : ℤ := max lo (min hi x)

/-- ROA criterion of the proportional scorer (max 15):
`max(0, min(15, int((roa + 5) * 15 / 20)))`. -/
def propRoaPts (roa : ℚ) : ℤ := clamp 0 15 (pyint ((roa + 5) * 15 / 20))

/-- ROE criterion of the proportional scorer (max 15). -/
def propRoePts (roe : ℚ) : ℤ := clamp 0 15 (pyint ((roe + 5) * 15 / 20))

/-- Cash-vs-debt criterion (max 15): coverage ratio `cash/debt * 7.5`
clamped, full 15 when debt is zero but cash positive, else 0. -/
def propCashDebtPts (cash debt : ℚ) : ℤ :=
  if 0 < debt then clamp 0 15 (pyint (cash / debt * (15/2)))
  else if 0 < cash then 15
  else 0

/-- Fair-value-upside criterion (max 20): `int(upside * 0.4)` clamped,
only when `price > 0` and `fair_value > 0`. -/
def propUpsidePts (price fv : ℚ) : ℤ :=
  if 0 < price ∧ 0 < fv then
    clamp 0 20 (pyint ((fv - price) / price * 100 * (2/5)))
  else 0

/-- Profit-margin criterion (max 10): `int((pm + 5) * 10 / 25)` clamped. -/
def propMarginPts (pm : ℚ) : ℤ := clamp 0 10 (pyint ((pm + 5) * 10 / 25))

/-- P/S criterion (max 10): `int((5 - ps) * 2.5)` clamped, only when `ps > 0`. -/
def propPsPts (ps : ℚ) : ℤ :=
  if 0 < ps then clamp 0 10 (pyint ((5 - ps) * (5/2))) else 0

/-- FCF criterion (max 15): FCF-yield `int(fcf/market_cap*100*1.5)` clamped
when both positive, flat 10 when only FCF positive. -/
def propFcfPts (fcf mcap : ℚ) : ℤ :=
  if 0 < fcf ∧ 0 < mcap then clamp 0 15 (pyint (fcf / mcap * 100 * (3/2)))
  else if 0 < fcf then 10
  else 0

/-- `calculate_score(info, price, fair_value)` from `api/scan.py`:
the proportional scorer, final `min(score, 100)`. -/
def calculate_score (info : Info) (price fv : ℚ) : ℤ :=
  let roa := to_pct (some (orZero info.returnOnAssets))
  let roe := to_pct (some (orZero info.returnOnEquity))
  let cash := orZero info.totalCash
  let debt := orZero info.totalDebt
  let fcf := orZero info.freeCashflow
  let pm := to_pct (some (orZero info.profitMargins))
  let ps := orZero info.priceToSalesTrailing12Months
  let mcap := orZero info.marketCap
  min (propRoaPts roa + propRoePts roe + propCashDebtPts cash debt +
       propUpsidePts price fv + propMarginPts pm + propPsPts ps +
       propFcfPts fcf mcap) 100

/-! ### Cliff-edge scorer (`calculate_investment_score` in `api/_utils.py`).
The input dict is embedded as a record of optional fields; each criterion
is a standalone points function and the score is their sum (the Python
code accumulates them in the same order). The textual `checks` entries are
display-only and omitted; points per criterion are what the claims test. -/

/-- The `data` dict handed to `calculate_investment_score`. -/
structure UData where
  roa : Option ℚ := none
  roe : Option ℚ := none
  cash : Option ℚ := none
  debt : Option ℚ := none
  price : Option ℚ := none
  fair_value : Option ℚ := none
  profit_margin : Option ℚ := none
  ps_ratio : Option ℚ := none
  fcf : Option ℚ := none
deriving DecidableEq

/-- `data.get('fair_value', price) or price` (where `price` was already
defaulted through `or 0`). -/
def UData.fairValueOf (d : UData) : ℚ :=
  let price := orZero d.price
  match d.fair_value with
  | none => price
  | some v => if v = 0 then price else v

/-- ROA criterion: `>10 → 15`, `>5 → 7`, else 0 (max 15). -/
def cliffRoaPts (roa : ℚ) : ℤ := if 10 < roa then 15 else if 5 < roa then 7 else 0

/-- ROE criterion: `>10 → 15`, `>5 → 7`, else 0 (max 15). -/
def cliffRoePts (roe : ℚ) : ℤ := if 10 < roe then 15 else if 5 < roe then 7 else 0

/-- Cash-vs-debt criterion: `cash >= debt → 15`, else 0 (max 15). -/
def cliffCashDebtPts (cash debt : ℚ) : ℤ := if debt ≤ cash then 15 else 0

/-- Fair-value criterion (max 20): tiered on the upside percentage, only
evaluated when `price > 0 and fair_value > 0`. -/
def cliffUpsidePts (price fv : ℚ) : ℤ :=
  if 0 < price ∧ 0 < fv then
    let upside := (fv - price) / price * 100
    if 30 < upside then 20 else if 10 < upside then 10 else if 0 < upside then 5 else 0
  else 0

/-- Profit-margin criterion: `>15 → 10`, `>5 → 5`, else 0 (max 10). -/
def cliffMarginPts (pm : ℚ) : ℤ := if 15 < pm then 10 else if 5 < pm then 5 else 0

/-- P/S criterion: `0 < ps < 2 → 10`, else 0 (max 10). -/
def cliffPsPts (ps : ℚ) : ℤ := if 0 < ps ∧ ps < 2 then 10 else 0

/-- FCF criterion: `fcf > 0 → 15`, else 0 (max 15). -/
def cliffFcfPts (fcf : ℚ) : ℤ := if 0 < fcf then 15 else 0

/-- `calculate_investment_score(data)` from `api/_utils.py` (score part). -/
def calculate_investment_score (d : UData) : ℤ :=
  cliffRoaPts (orZero d.roa) + cliffRoePts (orZero d.roe) +
  cliffCashDebtPts (orZero d.cash) (orZero d.debt) +
  cliffUpsidePts (orZero d.price) d.fairValueOf +
  cliffMarginPts (orZero d.profit_margin) +
  cliffPsPts (orZero d.ps_ratio) + cliffFcfPts (orZero d.fcf)

/-- The per-criterion max points of the standard scorer variant, in
criterion order (ROA, ROE, cash-vs-debt, upside, margin, P/S, FCF). -/
def standardMaxPoints : List ℤ := [15, 15, 15, 20, 10, 10, 15]

/-! ### Recommendation classifier (`get_recommendation` in `api/_utils.py`
and `api/analyze/[symbol].py`; identical decision tables). -/

/-- The discrete recommendation signal. -/
inductive Signal where
  | strongBuy | buy | hold | watch | avoid
deriving DecidableEq

/-- `get_recommendation(score, upside)`: top-down decision table,
first match wins. -/
def get_recommendation (score : ℤ) (upside : ℚ) : Signal :=
  if 70 ≤ score ∧ 30 < upside then .strongBuy
  else if 60 ≤ score ∧ 15 < upside then .buy
  else if 50 ≤ score ∧ 0 < upside then .hold
  else if 40 ≤ score then .watch
  else .avoid

/-! ### ROIC (`calculate_roic` in `api/analyze/[symbol].py` and
`api/recommend.py`; identical bodies). -/

/-- `invested_capital = equity + total_debt - total_cash`, with
`equity = bv_ps * shares if bv_ps and shares else 0`. -/
def investedCapital (info : Info) : ℚ :=
  let bv := orZero info.bookValue
  let sh := orZero info.sharesOutstanding
  let td := orZero info.totalDebt
  let tc := orZero info.totalCash
  let equity := if bv ≠ 0 ∧ sh ≠ 0 then bv * sh else 0
  equity + td - tc

/-- `calculate_roic(info)`: `None` when net income is falsy or invested
capital is non-positive, else `net_income / invested_capital * 100`. -/
def calculate_roic (info : Info) : Option ℚ :=
  let ni := orZero info.netIncomeToCommon
  if ni = 0 then none
  else if investedCapital info ≤ 0 then none
  else some (ni / investedCapital info * 100)

/-! ### Sticker price (`calculate_sticker_price` in
`api/analyze/[symbol].py`; `api/recommend.py` repeats the same arithmetic
without the verdict). -/

/-- Sticker-price verdict. -/
inductive Verdict where
  | onSale | fairValueV | overpriced
deriving DecidableEq

/-- The sticker-price result record (unrounded values; the source rounds
only for display). -/
structure Sticker where
  eps : ℚ
  growth_rate : ℚ
  future_eps : ℚ
  future_pe : ℚ
  future_price : ℚ
  sticker_price : ℚ
  mos_price : ℚ
  current_price : ℚ
  verdict : Verdict
deriving DecidableEq

/-- Growth-rate resolution, first positive hit wins:
analyst earnings growth (`eg if eg < 1 else eg/100`), then forward-vs-
trailing EPS delta, then revenue growth (same `< 1` normalization). -/
def resolveGrowth (info : Info) (eps : ℚ) : Option ℚ :=
  let s1 : Option ℚ :=
    match info.earningsGrowth with
    | none => none
    | some eg => if 0 < eg then some (if eg < 1 then eg else eg / 100) else none
  match s1 with
  | some g => some g
  | none =>
    let fwd := orZero info.forwardEps
    if fwd ≠ 0 ∧ eps ≠ 0 ∧ eps < fwd then some ((fwd - eps) / eps)
    else
      match info.revenueGrowth with
      | none => none
      | some rg => if 0 < rg then some (if rg < 1 then rg else rg / 100) else none

/-- `calculate_sticker_price(info, price)`: requires positive trailing EPS
and a positive resolved growth rate (capped at 0.30); computes the 10-year
projection and the verdict. -/
def calculate_sticker_price (info : Info) (price : ℚ) : Option Sticker :=
  let eps := orZero info.trailingEps
  if eps = 0 ∨ eps ≤ 0 then none
  else
    match resolveGrowth info eps with
    | none => none
    | some g0 =>
      if g0 ≤ 0 then none
      else
        let g := min g0 (3/10)
        let future_eps := eps * (1 + g) ^ 10
        let future_pe := min (2 * g * 100) 50
        let future_price := future_eps * future_pe
        let sticker := future_price / (23/20 : ℚ) ^ 10
        let mos := sticker / 2
        let verdict : Verdict :=
          if price ≤ mos then .onSale
          else if price ≤ sticker then .fairValueV
          else .overpriced
        some ⟨eps, g, future_eps, future_pe, future_price, sticker, mos, price, verdict⟩

/-! ### Batch scan handler (`handler.do_GET` in `api/scan.py`).
The yfinance provider is modelled as a pair of fallible functions
(`Except Unit` is a raised exception); the per-ticker `try/except` body is
embedded as `tryBody` (exceptions propagate) wrapped by `processSymbol`
(the `except` branch: retry history, else skip).  The default-algo path
(`calculate_score`) is modelled; display rounding of price/upside omitted. -/

/-- Python `a or b` on strings: empty string is falsy. -/
def pyOrStr (a b : String) : String := if a = "" then b else a

/-- One row of the `opportunities` output. -/
structure Entry where
  symbol : String
  name : String
  price : ℚ
  score : ℤ
  upside : ℚ
deriving DecidableEq

/-- `safe_get(info,'longName') or safe_get(info,'shortName', symbol)`. -/
def nameOf (info : Info) (sym : String) : String :=
  pyOrStr (info.longName.getD "") (info.shortName.getD sym)

/-- The external data provider: `stock.info` (may raise, may be falsy)
and `stock.history(...)['Close']` (may raise; empty list = empty frame). -/
structure Provider where
  fetchInfo : String → Except Unit (Option Info)
  fetchHist : String → Except Unit (List ℚ)

/-- The minimal-data row appended when only a history price is available. -/
def defaultEntry (sym : String) (price : ℚ) : Entry := ⟨sym, sym, price, 50, 0⟩

/-- The handler-level upside `((fv - price) / price * 100) if price > 0 else 0`. -/
def upsideOf (price fv : ℚ) : ℚ :=
  if 0 < price then (fv - price) / price * 100 else 0

/-- The tail of the loop body once a price has been settled: skip on
`price == 0`, else fair value, score (default algo) and upside. -/
def scoreEntry (info : Info) (sym : String) (price : ℚ) : Option Entry :=
  if price = 0 then none
  else
    let fv := calculate_fair_value info price
    some ⟨sym, nameOf info sym, price, calculate_score info price fv, upsideOf price fv⟩

/-- The body of the per-ticker `try:` block; raised provider exceptions
propagate to the caller of this function. `.ok none` models `continue`. -/
def tryBody (p : Provider) (sym : String) : Except Unit (Option Entry) :=
  match p.fetchInfo sym with
  | .error u => .error u
  | .ok none =>
    match p.fetchHist sym with
    | .error u => .error u
    | .ok closes =>
      match closes.getLast? with
      | some price => .ok (some (defaultEntry sym price))
      | none => .ok none
  | .ok (some info) =>
    let price0 := pyOr (orZero info.currentPrice) (orZero info.regularMarketPrice)
    if price0 = 0 then
      match p.fetchHist sym with
      | .error u => .error u
      | .ok closes => .ok (scoreEntry info sym (closes.getLast?.getD price0))
    else .ok (scoreEntry info sym price0)

/-- One loop iteration with its `except` recovery: on any raised error the
handler retries the 5-day history (itself guarded by an inner bare
`except: pass`), else the ticker is skipped. -/
def processSymbol (p : Provider) (sym : String) : Option Entry :=
  match tryBody p sym with
  | .ok e => e
  | .error _ =>
    match p.fetchHist sym with
    | .error _ => none
    | .ok closes => closes.getLast?.map (defaultEntry sym)

/-- Descending-score order used by `opportunities.sort(key=..., reverse=True)`. -/
def scoreGE (a b : Entry) : Prop := b.score ≤ a.score

instance : DecidableRel scoreGE := fun a b => inferInstanceAs (Decidable (b.score ≤ a.score))

instance : IsTotal Entry scoreGE := ⟨fun a b => le_total b.score a.score⟩

instance : IsTrans Entry scoreGE := ⟨fun _ _ _ h1 h2 => le_trans h2 h1⟩

/-- The whole scan loop plus final sort (Python's stable sort modelled by
insertion sort, which is likewise stable). -/
def scanBatch (p : Provider) (tickers : List String) : List Entry :=
  List.insertionSort scoreGE (tickers.filterMap (processSymbol p))

/-! ### Division-by-zero instrumentation for the scoring core (claim C9).
`cdiv` makes every data-dependent division explicit: it returns `none`
exactly when the divisor is zero.  The `...Chk` functions re-run the same
code paths with `cdiv`; proving they always return `some` (and agree with
the plain embedding) shows no guarded division is ever evaluated at zero.
Divisions by literal nonzero constants (`/20`, `/25`, `/2`) are not
data-dependent and stay plain. -/

/-- Checked division: `none` iff the divisor is zero. -/
def cdiv (a b : ℚ) : Option ℚ := if b = 0 then none else some (a / b)

/-- Cash-vs-debt criterion with checked division. -/
def propCashDebtPtsChk (cash debt : ℚ) : Option ℤ :=
  if 0 < debt then (cdiv cash debt).map (fun c => clamp 0 15 (pyint (c * (15/2))))
  else if 0 < cash then some 15
  else some 0

/-- Upside criterion with checked division. -/
def propUpsidePtsChk (price fv : ℚ) : Option ℤ :=
  if 0 < price ∧ 0 < fv then
    (cdiv (fv - price) price).map (fun u => clamp 0 20 (pyint (u * 100 * (2/5))))
  else some 0

/-- FCF-yield criterion with checked division. -/
def propFcfPtsChk (fcf mcap : ℚ) : Option ℤ :=
  if 0 < fcf ∧ 0 < mcap then
    (cdiv fcf mcap).map (fun y => clamp 0 15 (pyint (y * 100 * (3/2))))
  else if 0 < fcf then some 10
  else some 0

/-- `calculate_score` with every data-dependent division checked. -/
def calculate_scoreChk (info : Info) (price fv : ℚ) : Option ℤ := do
  let roa := to_pct (some (orZero info.returnOnAssets))
  let roe := to_pct (some (orZero info.returnOnEquity))
  let cash := orZero info.totalCash
  let debt := orZero info.totalDebt
  let fcf := orZero info.freeCashflow
  let pm := to_pct (some (orZero info.profitMargins))
  let ps := orZero info.priceToSalesTrailing12Months
  let mcap := orZero info.marketCap
  let cd ← propCashDebtPtsChk cash debt
  let up ← propUpsidePtsChk price fv
  let fc ← propFcfPtsChk fcf mcap
  return min (propRoaPts roa + propRoePts roe + cd + up +
              propMarginPts pm + propPsPts ps + fc) 100

/-- `calculate_roic` with its division checked (outer `none` = a division
by zero would have been evaluated; inner value is the code's result). -/
def calculate_roicChk (info : Info) : Option (Option ℚ) :=
  let ni := orZero info.netIncomeToCommon
  if ni = 0 then some none
  else if investedCapital info ≤ 0 then some none
  else (cdiv ni (investedCapital info)).map (fun r => some (r * 100))

/-- `upsideOf` with its division checked. -/
def upsideChk (price fv : ℚ) : Option ℚ :=
  if 0 < price then (cdiv (fv - price) price).map (· * 100) else some 0

/-! ### Affinity ranker (`handler._generate_recommendations` in
`api/recommend.py`).  The per-candidate fetch/affinity computation yields
a (quality, affinity, upside) triple per surviving candidate; the ranking
pipeline — quality floor, `_final` key, lexicographic sort, top 6 — is
embedded over those triples. -/

/-- A candidate after scoring: Rule #1 quality score, affinity (0–40),
display upside. -/
structure Cand where
  symbol : String
  quality : ℤ
  affinity : ℚ
  upside : ℚ
deriving DecidableEq

/-- `final_score = int(quality_score * 0.6 +
min(affinity, max_affinity) * 0.4 / max_affinity * 100 * 0.4)`
with `max_affinity = 40`, exactly as the source writes it. -/
def final_score (quality : ℤ) (affinity : ℚ) : ℤ :=
  pyint ((quality : ℚ) * (3/5) + min affinity 40 * (2/5) / 40 * 100 * (2/5))

/-- Modelled from the spec: the final rank key as §4.6 words it,
`quality_score × 0.6 + (affinity/40) × 100 × 0.4 / 100`, as an integer.
Kept separate from `final_score` (the source's formula) for comparison. -/
def claimedRankKey (quality : ℤ) (affinity : ℚ) : ℤ :=
  pyint ((quality : ℚ) * (3/5) + affinity / 40 * 100 * (2/5) / 100)

/-- A recommendation row carrying the internal `_final` sort key. -/
structure Rec where
  symbol : String
  score : ℤ
  upside : ℚ
  affinity : ℚ
  final : ℤ
deriving DecidableEq

/-- Build the row appended by the loop for a surviving candidate. -/
def mkRec (c : Cand) : Rec :=
  ⟨c.symbol, c.quality, c.upside, c.affinity, final_score c.quality c.affinity⟩

/-- `key=lambda x: (-x['_final'], -x['score'], -x['upside'])` ascending,
i.e. (final, score, upside) descending lexicographically. -/
def recRel (a b : Rec) : Prop :=
  b.final < a.final ∨ (b.final = a.final ∧
    (b.score < a.score ∨ (b.score = a.score ∧ b.upside ≤ a.upside)))

instance : DecidableRel recRel := fun a b =>
  inferInstanceAs (Decidable (b.final < a.final ∨ (b.final = a.final ∧
    (b.score < a.score ∨ (b.score = a.score ∧ b.upside ≤ a.upside)))))

instance : IsTotal Rec recRel := ⟨by
  intro a b
  unfold recRel
  rcases lt_trichotomy b.final a.final with h | h | h
  · exact Or.inl (Or.inl h)
  · rcases lt_trichotomy b.score a.score with h2 | h2 | h2
    · exact Or.inl (Or.inr ⟨h, Or.inl h2⟩)
    · rcases le_total b.upside a.upside with h3 | h3
      · exact Or.inl (Or.inr ⟨h, Or.inr ⟨h2, h3⟩⟩)
      · exact Or.inr (Or.inr ⟨h.symm, Or.inr ⟨h2.symm, h3⟩⟩)
    · exact Or.inr (Or.inr ⟨h.symm, Or.inl h2⟩)
  · exact Or.inr (Or.inl h)⟩

instance : IsTrans Rec recRel := ⟨by
  intro a b c hab hbc
  unfold recRel at *
  rcases hab with h1 | ⟨e1, h1⟩ <;> rcases hbc with h2 | ⟨e2, h2⟩
  · exact Or.inl (h2.trans h1)
  · exact Or.inl (e2 ▸ h1)
  · exact Or.inl (e1 ▸ h2)
  · refine Or.inr ⟨e2.trans e1, ?_⟩
    rcases h1 with h1 | ⟨f1, h1⟩ <;> rcases h2 with h2 | ⟨f2, h2⟩
    · exact Or.inl (h2.trans h1)
    · exact Or.inl (f2 ▸ h1)
    · exact Or.inl (f1 ▸ h2)
    · exact Or.inr ⟨f2.trans f1, h2.trans h1⟩⟩

/-- The ranking pipeline: quality floor (`< 25` skipped), `_final` key,
stable lexicographic sort, `[:6]`. -/
def generateRecommendations (cands : List Cand) : List Rec :=
  (List.insertionSort recRel
    ((cands.filter fun c => 25 ≤ c.quality).map mkRec)).take 6

/-! ## Theorems -/

section Bounds

lemma clamp_mem (lo hi x : ℤ) (h : lo ≤ hi) : lo ≤ clamp lo hi x ∧ clamp lo hi x ≤ hi := by
  unfold clamp; omega

lemma propRoaPts_mem (x : ℚ) : 0 ≤ propRoaPts x ∧ propRoaPts x ≤ 15 := by
  unfold propRoaPts; exact clamp_mem 0 15 _ (by norm_num)

lemma propRoePts_mem (x : ℚ) : 0 ≤ propRoePts x ∧ propRoePts x ≤ 15 := by
  unfold propRoePts; exact clamp_mem 0 15 _ (by norm_num)

lemma propCashDebtPts_mem (c d : ℚ) : 0 ≤ propCashDebtPts c d ∧ propCashDebtPts c d ≤ 15 := by
  unfold propCashDebtPts clamp; split_ifs <;> omega

lemma propUpsidePts_mem (p f : ℚ) : 0 ≤ propUpsidePts p f ∧ propUpsidePts p f ≤ 20 := by
  unfold propUpsidePts clamp; split_ifs <;> omega

lemma propMarginPts_mem (x : ℚ) : 0 ≤ propMarginPts x ∧ propMarginPts x ≤ 10 := by
  unfold propMarginPts; exact clamp_mem 0 10 _ (by norm_num)

lemma propPsPts_mem (x : ℚ) : 0 ≤ propPsPts x ∧ propPsPts x ≤ 10 := by
  unfold propPsPts clamp; split_ifs <;> omega

lemma propFcfPts_mem (f m : ℚ) : 0 ≤ propFcfPts f m ∧ propFcfPts f m ≤ 15 := by
  unfold propFcfPts clamp; split_ifs <;> omega

lemma cliffRoaPts_mem (x : ℚ) : 0 ≤ cliffRoaPts x ∧ cliffRoaPts x ≤ 15 := by
  unfold cliffRoaPts; split_ifs <;> omega

lemma cliffRoePts_mem (x : ℚ) : 0 ≤ cliffRoePts x ∧ cliffRoePts x ≤ 15 := by
  unfold cliffRoePts; split_ifs <;> omega

lemma cliffCashDebtPts_mem (c d : ℚ) : 0 ≤ cliffCashDebtPts c d ∧ cliffCashDebtPts c d ≤ 15 := by
  unfold cliffCashDebtPts; split_ifs <;> omega

lemma cliffUpsidePts_mem (p f : ℚ) : 0 ≤ cliffUpsidePts p f ∧ cliffUpsidePts p f ≤ 20 := by
  unfold cliffUpsidePts; dsimp only; split_ifs <;> omega

lemma cliffMarginPts_mem (x : ℚ) : 0 ≤ cliffMarginPts x ∧ cliffMarginPts x ≤ 10 := by
  unfold cliffMarginPts; split_ifs <;> omega

lemma cliffPsPts_mem (x : ℚ) : 0 ≤ cliffPsPts x ∧ cliffPsPts x ≤ 10 := by
  unfold cliffPsPts; split_ifs <;> omega

lemma cliffFcfPts_mem (x : ℚ) : 0 ≤ cliffFcfPts x ∧ cliffFcfPts x ≤ 15 := by
  unfold cliffFcfPts; split_ifs <;> omega

end Bounds

/-- C1: for every input, both the cliff-edge scorer
`calculate_investment_score` and the proportional scorer `calculate_score`
return an integer score in [0,100]; each criterion awards points within
[0, its max]; and the standard variant's per-criterion max points
15+15+15+20+10+10+15 sum to 100. -/
theorem scores_bounded :
    (∀ d : UData, 0 ≤ calculate_investment_score d ∧ calculate_investment_score d ≤ 100) ∧
    (∀ (info : Info) (price fv : ℚ),
      0 ≤ calculate_score info price fv ∧ calculate_score info price fv ≤ 100) ∧
    (∀ x : ℚ, 0 ≤ cliffRoaPts x ∧ cliffRoaPts x ≤ 15) ∧
    (∀ x : ℚ, 0 ≤ cliffRoePts x ∧ cliffRoePts x ≤ 15) ∧
    (∀ c d : ℚ, 0 ≤ cliffCashDebtPts c d ∧ cliffCashDebtPts c d ≤ 15) ∧
    (∀ p f : ℚ, 0 ≤ cliffUpsidePts p f ∧ cliffUpsidePts p f ≤ 20) ∧
    (∀ x : ℚ, 0 ≤ cliffMarginPts x ∧ cliffMarginPts x ≤ 10) ∧
    (∀ x : ℚ, 0 ≤ cliffPsPts x ∧ cliffPsPts x ≤ 10) ∧
    (∀ x : ℚ, 0 ≤ cliffFcfPts x ∧ cliffFcfPts x ≤ 15) ∧
    (∀ x : ℚ, 0 ≤ propRoaPts x ∧ propRoaPts x ≤ 15) ∧
    (∀ x : ℚ, 0 ≤ propRoePts x ∧ propRoePts x ≤ 15) ∧
    (∀ c d : ℚ, 0 ≤ propCashDebtPts c d ∧ propCashDebtPts c d ≤ 15) ∧
    (∀ p f : ℚ, 0 ≤ propUpsidePts p f ∧ propUpsidePts p f ≤ 20) ∧
    (∀ x : ℚ, 0 ≤ propMarginPts x ∧ propMarginPts x ≤ 10) ∧
    (∀ x : ℚ, 0 ≤ propPsPts x ∧ propPsPts x ≤ 10) ∧
    (∀ f m : ℚ, 0 ≤ propFcfPts f m ∧ propFcfPts f m ≤ 15) ∧
    standardMaxPoints.sum = 100 := by
  refine ⟨?_, ?_, cliffRoaPts_mem, cliffRoePts_mem, cliffCashDebtPts_mem,
    cliffUpsidePts_mem, cliffMarginPts_mem, cliffPsPts_mem, cliffFcfPts_mem,
    propRoaPts_mem, propRoePts_mem, propCashDebtPts_mem, propUpsidePts_mem,
    propMarginPts_mem, propPsPts_mem, propFcfPts_mem, by decide⟩
  · intro d
    unfold calculate_investment_score
    obtain ⟨a1, a2⟩ := cliffRoaPts_mem (orZero d.roa)
    obtain ⟨b1, b2⟩ := cliffRoePts_mem (orZero d.roe)
    obtain ⟨c1, c2⟩ := cliffCashDebtPts_mem (orZero d.cash) (orZero d.debt)
    obtain ⟨d1, d2⟩ := cliffUpsidePts_mem (orZero d.price) d.fairValueOf
    obtain ⟨e1, e2⟩ := cliffMarginPts_mem (orZero d.profit_margin)
    obtain ⟨f1, f2⟩ := cliffPsPts_mem (orZero d.ps_ratio)
    obtain ⟨g1, g2⟩ := cliffFcfPts_mem (orZero d.fcf)
    omega
  · intro info price fv
    unfold calculate_score
    dsimp only
    obtain ⟨a1, a2⟩ := propRoaPts_mem (to_pct (some (orZero info.returnOnAssets)))
    obtain ⟨b1, b2⟩ := propRoePts_mem (to_pct (some (orZero info.returnOnEquity)))
    obtain ⟨c1, c2⟩ := propCashDebtPts_mem (orZero info.totalCash) (orZero info.totalDebt)
    obtain ⟨d1, d2⟩ := propUpsidePts_mem price fv
    obtain ⟨e1, e2⟩ := propMarginPts_mem (to_pct (some (orZero info.profitMargins)))
    obtain ⟨f1, f2⟩ := propPsPts_mem (orZero info.priceToSalesTrailing12Months)
    obtain ⟨g1, g2⟩ := propFcfPts_mem (orZero info.freeCashflow) (orZero info.marketCap)
    omega

/-- C2 counterexample: at the boundary value 10, `to_pct` does NOT return
10 unchanged — `abs(10) > 10` is false, so the ×100 branch fires and the
result is 1000. -/
theorem to_pct_boundary_counterexample : to_pct (some 10) = 1000 ∧ (1000 : ℚ) ≠ 10 := by
  constructor
  · norm_num [to_pct]
  · norm_num

/-- C2 (amended): `to_pct` maps null to 0, returns any value with
`abs(value) > 10` unchanged, and returns `value * 100` otherwise; in
particular `to_pct 0.10 = 10.0`, `to_pct 24.4 = 24.4`, and at the boundary
`to_pct 10.0 = 1000.0`, because `abs(10) > 10` is strictly false so the
multiply-by-100 branch applies. -/
theorem to_pct_spec (v w : ℚ) (hv : 10 < |v|) (hw : |w| ≤ 10) :
    to_pct none = 0 ∧ to_pct (some v) = v ∧ to_pct (some w) = w * 100 ∧
    to_pct (some (1/10)) = 10 ∧ to_pct (some (122/5)) = 122/5 ∧
    to_pct (some 10) = 1000 := by
  refine ⟨rfl, ?_, ?_, ?_, ?_, ?_⟩
  · simp only [to_pct]; rw [if_pos hv]
  · simp only [to_pct]; rw [if_neg (not_lt.mpr hw)]
  · norm_num [to_pct, abs_of_nonneg]
  · norm_num [to_pct, abs_of_nonneg]
  · norm_num [to_pct]

/-- Witness for `to_pct_spec` at `v = 24.4`, `w = 0.1`. -/
theorem to_pct_spec_witness :
    to_pct none = 0 ∧ to_pct (some (122/5)) = 122/5 ∧
    to_pct (some (1/10)) = (1/10) * 100 ∧
    to_pct (some (1/10)) = 10 ∧ to_pct (some (122/5)) = 122/5 ∧
    to_pct (some 10) = 1000 :=
  to_pct_spec (122/5) (1/10) (by norm_num [abs_of_nonneg]) (by norm_num [abs_of_nonneg])

/-- C5: `get_recommendation` is a pure total function of (score, upside);
the table is evaluated top-down with first match winning (each signal is
characterized by its row's guard conjoined with the negations of all
earlier rows' guards); in particular (75,35) ↦ STRONG BUY, (55,5) ↦ HOLD,
(20,−10) ↦ AVOID. -/
theorem recommendation_table :
    get_recommendation 75 35 = .strongBuy ∧
    get_recommendation 55 5 = .hold ∧
    get_recommendation 20 (-10) = .avoid ∧
    ∀ (s : ℤ) (u : ℚ),
      (get_recommendation s u = .strongBuy ↔ (70 ≤ s ∧ 30 < u)) ∧
      (get_recommendation s u = .buy ↔
        (¬(70 ≤ s ∧ 30 < u) ∧ (60 ≤ s ∧ 15 < u))) ∧
      (get_recommendation s u = .hold ↔
        (¬(70 ≤ s ∧ 30 < u) ∧ ¬(60 ≤ s ∧ 15 < u) ∧ (50 ≤ s ∧ 0 < u))) ∧
      (get_recommendation s u = .watch ↔
        (¬(70 ≤ s ∧ 30 < u) ∧ ¬(60 ≤ s ∧ 15 < u) ∧ ¬(50 ≤ s ∧ 0 < u) ∧ 40 ≤ s)) ∧
      (get_recommendation s u = .avoid ↔
        (¬(70 ≤ s ∧ 30 < u) ∧ ¬(60 ≤ s ∧ 15 < u) ∧ ¬(50 ≤ s ∧ 0 < u) ∧ ¬(40 ≤ s))) := by
  refine ⟨by norm_num [get_recommendation], by norm_num [get_recommendation],
    by norm_num [get_recommendation], ?_⟩
  intro s u
  unfold get_recommendation
  split_ifs with h1 h2 h3 h4 <;>
    refine ⟨?_, ?_, ?_, ?_, ?_⟩ <;> simp_all

/-- C10: whenever cash and debt are both missing or zero, the cliff-edge
scorer's cash-vs-debt criterion awards the full 15 points (0 ≥ 0 passes
`cash >= debt`), so the score is at least 15; an all-missing input
receives exactly 15. -/
theorem cash_debt_vacuous_points (d : UData)
    (hc : orZero d.cash = 0) (hd : orZero d.debt = 0) :
    cliffCashDebtPts (orZero d.cash) (orZero d.debt) = 15 ∧
    15 ≤ calculate_investment_score d ∧
    calculate_investment_score {} = 15 := by
  have h15 : cliffCashDebtPts (orZero d.cash) (orZero d.debt) = 15 := by
    rw [hc, hd]; norm_num [cliffCashDebtPts]
  refine ⟨h15, ?_, ?_⟩
  · unfold calculate_investment_score
    obtain ⟨a1, a2⟩ := cliffRoaPts_mem (orZero d.roa)
    obtain ⟨b1, b2⟩ := cliffRoePts_mem (orZero d.roe)
    obtain ⟨d1, d2⟩ := cliffUpsidePts_mem (orZero d.price) d.fairValueOf
    obtain ⟨e1, e2⟩ := cliffMarginPts_mem (orZero d.profit_margin)
    obtain ⟨f1, f2⟩ := cliffPsPts_mem (orZero d.ps_ratio)
    obtain ⟨g1, g2⟩ := cliffFcfPts_mem (orZero d.fcf)
    omega
  · norm_num [calculate_investment_score, cliffRoaPts, cliffRoePts,
      cliffCashDebtPts, cliffUpsidePts, cliffMarginPts, cliffPsPts,
      cliffFcfPts, orZero, UData.fairValueOf]

/-- Witness for `cash_debt_vacuous_points` at the all-missing input. -/
theorem cash_debt_vacuous_points_witness :
    cliffCashDebtPts (orZero (UData.cash {})) (orZero (UData.debt {})) = 15 ∧
    15 ≤ calculate_investment_score {} ∧
    calculate_investment_score {} = 15 :=
  cash_debt_vacuous_points {} rfl rfl

/-- The concrete input refuting the claimed PEG conversion rule:
earnings growth 1.0 (i.e. 100% as a ratio), EPS 1. -/
def pegEx : Info := { trailingEps := some 1, earningsGrowth := some 1 }

/-- C7 counterexample: at `earningsGrowth = 1`, `trailingEps = 1` the PEG
method returns `1` (the code's rule `eg*100 if eg < 1 else eg` passes 1
through), while the §4.1 rule `to_pct` (abs > 10 unchanged, else ×100)
would give `eps × min(100, 40) = 40`. -/
theorem peg_rule_counterexample :
    fvMethod3 pegEx = some 1 ∧
    orZero pegEx.trailingEps * min (to_pct pegEx.earningsGrowth) 40 = 40 ∧
    (1 : ℚ) ≠ 40 := by
  refine ⟨?_, ?_, by norm_num⟩
  · norm_num [fvMethod3, pegEx, orZero, min_def]
  · norm_num [pegEx, orZero, to_pct, abs_of_nonneg, min_def]

/-- C7 (amended): whenever the earnings-growth rate and EPS are both
positive, the PEG method converts the growth rate to a percentage by
multiplying by 100 when it is < 1 and passing it through unchanged
otherwise (the `eg < 1` rule, not the §4.1 `abs > 10` rule), and outputs
`fair = EPS × min(growth_pct, 40)`. -/
theorem peg_method_formula (info : Info) (eg : ℚ)
    (hEg : info.earningsGrowth = some eg) (hpos : 0 < eg)
    (hEps : 0 < orZero info.trailingEps) :
    fvMethod3 info =
      some (orZero info.trailingEps * min (if eg < 1 then eg * 100 else eg) 40) := by
  have hgp : 0 < min (if eg < 1 then eg * 100 else eg) 40 := by
    rw [lt_min_iff]
    constructor
    · split_ifs <;> linarith
    · norm_num
  have hfv : 0 < orZero info.trailingEps * min (if eg < 1 then eg * 100 else eg) 40 :=
    mul_pos hEps hgp
  simp only [fvMethod3, hEg]
  rw [if_pos ⟨ne_of_gt hpos, hpos, ne_of_gt hEps, hEps⟩, if_pos hfv]

/-- Witness input for `peg_method_formula`: growth 0.5, EPS 2. -/
def pegWitnessInfo : Info := { trailingEps := some 2, earningsGrowth := some (1/2) }

/-- Witness for `peg_method_formula` at growth 0.5, EPS 2. -/
theorem peg_method_formula_witness :
    fvMethod3 pegWitnessInfo =
      some (orZero pegWitnessInfo.trailingEps *
        min (if (1/2 : ℚ) < 1 then (1/2) * 100 else (1/2)) 40) :=
  peg_method_formula pegWitnessInfo (1/2) rfl (by norm_num) (by norm_num [pegWitnessInfo, orZero])

/-- C8 counterexample: at quality 50, affinity 40 the code's `_final` key
is `int(50·0.6 + min(40,40)·0.4/40·100·0.4) = 46`, whereas the claimed
formula `int(50·0.6 + (40/40)·100·0.4/100) = 30`. -/
theorem rank_key_counterexample :
    final_score 50 40 = 46 ∧ claimedRankKey 50 40 = 30 ∧ (46 : ℤ) ≠ 30 := by
  refine ⟨?_, ?_, by norm_num⟩
  · norm_num [final_score, pyint, min_self]
  · norm_num [claimedRankKey, pyint]

/-- C8 (amended): for every candidate passing the quality floor, the final
rank key equals `int(quality × 0.6 + min(affinity, 40) × 0.4)` — the raw
0–40 affinity weighted 0.4 (not re-normalized through `/100`); candidates
are ordered by this key descending with ties broken by raw quality score,
then by upside, and the first `min(6, #passing)` are output. -/
theorem rank_key_blend :
    (∀ (q : ℤ) (aff : ℚ),
      final_score q aff = pyint ((q : ℚ) * (3/5) + min aff 40 * (2/5))) ∧
    (∀ cands : List Cand,
      (generateRecommendations cands).length =
        min 6 ((cands.filter fun c => 25 ≤ c.quality).length) ∧
      List.Sorted recRel (generateRecommendations cands) ∧
      ∀ r ∈ generateRecommendations cands,
        r.final = final_score r.score r.affinity ∧
        ∃ c ∈ cands, 25 ≤ c.quality ∧ r = mkRec c) := by
  constructor
  · intro q aff
    unfold final_score
    congr 1
    ring
  · intro cands
    refine ⟨?_, ?_, ?_⟩
    · unfold generateRecommendations
      rw [List.length_take, List.length_insertionSort, List.length_map]
    · exact List.Pairwise.sublist (List.take_sublist 6 _)
        (List.sorted_insertionSort recRel _)
    · intro r hr
      have hr2 : r ∈ List.insertionSort recRel
          ((cands.filter fun c => 25 ≤ c.quality).map mkRec) :=
        (List.take_sublist 6 _).subset hr
      have hr3 : r ∈ (cands.filter fun c => 25 ≤ c.quality).map mkRec :=
        (List.perm_insertionSort recRel _).mem_iff.mp hr2
      obtain ⟨c, hc, hrc⟩ := List.mem_map.mp hr3
      obtain ⟨hcm, hcq⟩ := List.mem_filter.mp hc
      subst hrc
      exact ⟨rfl, c, hcm, by simpa using hcq, rfl⟩

section DivisionGuards

lemma propCashDebtPtsChk_eq (c d : ℚ) :
    propCashDebtPtsChk c d = some (propCashDebtPts c d) := by
  by_cases h1 : 0 < d
  · simp [propCashDebtPtsChk, propCashDebtPts, cdiv, h1, ne_of_gt h1]
  · by_cases h2 : 0 < c <;>
      simp [propCashDebtPtsChk, propCashDebtPts, cdiv, h1, h2]

lemma propUpsidePtsChk_eq (p f : ℚ) :
    propUpsidePtsChk p f = some (propUpsidePts p f) := by
  by_cases h1 : 0 < p ∧ 0 < f
  · simp [propUpsidePtsChk, propUpsidePts, cdiv, h1, ne_of_gt h1.1]
  · simp [propUpsidePtsChk, propUpsidePts, cdiv, h1]

lemma propFcfPtsChk_eq (f m : ℚ) :
    propFcfPtsChk f m = some (propFcfPts f m) := by
  by_cases h1 : 0 < f ∧ 0 < m
  · simp [propFcfPtsChk, propFcfPts, cdiv, h1, ne_of_gt h1.2]
  · by_cases h2 : 0 < f
    · have hm : ¬ 0 < m := fun hm => h1 ⟨h2, hm⟩
      simp [propFcfPtsChk, propFcfPts, cdiv, h1, h2, hm]
    · simp [propFcfPtsChk, propFcfPts, cdiv, h1, h2]

end DivisionGuards

/-- C9: every data-dependent division in the scoring core is guarded:
re-running `calculate_score`, `calculate_roic` and the handler upside with
checked division (`none` exactly on a zero divisor) always succeeds and
agrees with the plain code, and ROIC is only ever computed from a strictly
positive invested capital. -/
theorem division_guards :
    (∀ (info : Info) (price fv : ℚ),
      calculate_scoreChk info price fv = some (calculate_score info price fv)) ∧
    (∀ info : Info, calculate_roicChk info = some (calculate_roic info)) ∧
    (∀ price fv : ℚ, upsideChk price fv = some (upsideOf price fv)) ∧
    (∀ info : Info, calculate_roic info ≠ none → 0 < investedCapital info) := by
  refine ⟨?_, ?_, ?_, ?_⟩
  · intro info price fv
    simp only [calculate_scoreChk, calculate_score, propCashDebtPtsChk_eq,
      propUpsidePtsChk_eq, propFcfPtsChk_eq, Option.bind_eq_bind,
      Option.some_bind, Option.pure_def]
  · intro info
    unfold calculate_roicChk calculate_roic cdiv
    dsimp only
    split_ifs with h1 h2 h3
    · rfl
    · rfl
    · exfalso
      push_neg at h2
      exact absurd h3 (ne_of_gt h2)
    · rfl
  · intro price fv
    by_cases h : 0 < price
    · simp [upsideChk, upsideOf, cdiv, h, ne_of_gt h]
    · simp [upsideChk, upsideOf, cdiv, h]
  · intro info h
    simp only [calculate_roic] at h
    split_ifs at h with h1 h2
    · exact absurd rfl h
    · exact absurd rfl h
    · push_neg at h2; exact h2

/-- Witness input for the ROIC guard: net income 10, equity 6, debt 1. -/
def roicEx : Info :=
  { netIncomeToCommon := some 10, bookValue := some 2, sharesOutstanding := some 3,
    totalDebt := some 1, totalCash := some 0 }

/-- Witness for `division_guards` (its ROIC-guard conjunct has a
hypothesis): at `roicEx` the ROIC is computed and invested capital is 7. -/
theorem division_guards_witness :
    calculate_roic roicEx ≠ none ∧ 0 < investedCapital roicEx :=
  ⟨by norm_num [calculate_roic, roicEx, orZero, investedCapital]; simp,
   division_guards.2.2.2 roicEx
     (by norm_num [calculate_roic, roicEx, orZero, investedCapital]; simp)⟩

/-- C3: the fair-value estimate is the unweighted arithmetic mean of the
fired methods' outputs, and when no method can fire (target price, forward
P/E, earnings growth, trailing P/E and EPS all absent or non-positive) and
the current price is 100, the estimate is exactly 100 with an empty
components list. -/
theorem fair_value_mean_and_fallback (info : Info)
    (h1 : orZero info.targetMeanPrice ≤ 0)
    (h2 : orZero info.forwardPE ≤ 0)
    (h3 : ∀ eg ∈ info.earningsGrowth, eg ≤ 0)
    (h4 : orZero info.trailingPE ≤ 0)
    (h5 : orZero info.trailingEps ≤ 0) :
    fairValuesList info 100 = [] ∧
    calculate_fair_value info 100 = 100 ∧
    ∀ (i : Info) (p : ℚ), fairValuesList i p ≠ [] →
      calculate_fair_value i p =
        (fairValuesList i p).sum / (fairValuesList i p).length := by
  have m1 : fvMethod1 info = none := by
    unfold fvMethod1
    rw [if_neg]
    rintro ⟨-, hpos⟩
    linarith
  have m2 : fvMethod2 info = none := by
    unfold fvMethod2
    rw [if_neg]
    rintro ⟨hne, hpos, -⟩
    linarith
  have m3 : fvMethod3 info = none := by
    unfold fvMethod3
    rcases heg : info.earningsGrowth with _ | eg
    · rfl
    · dsimp only
      rw [if_neg]
      rintro ⟨-, hpos, -⟩
      exact absurd hpos (not_lt.mpr (h3 eg (heg ▸ rfl)))
  have m4 : fvMethod4 info 100 = none := by
    unfold fvMethod4
    rw [if_neg, if_neg]
    · rintro ⟨-, hpos, -⟩; linarith
    · rintro ⟨-, hpos, -, -⟩; linarith
  have m5 : fvMethod5 info = none := by
    unfold fvMethod5
    rw [if_neg]
    rintro ⟨-, hpos⟩
    linarith
  have hempty : fairValuesList info 100 = [] := by
    unfold fairValuesList
    rw [m1, m2, m3, m4]
    simp [List.reduceOption, m5]
  refine ⟨hempty, ?_, ?_⟩
  · unfold calculate_fair_value
    rw [hempty]
    simp
  · intro i p h
    unfold calculate_fair_value
    rw [if_pos h]

/-- Witness for `fair_value_mean_and_fallback` at the all-missing input. -/
theorem fair_value_fallback_witness :
    fairValuesList {} 100 = [] ∧
    calculate_fair_value {} 100 = 100 ∧
    ∀ (i : Info) (p : ℚ), fairValuesList i p ≠ [] →
      calculate_fair_value i p =
        (fairValuesList i p).sum / (fairValuesList i p).length :=
  fair_value_mean_and_fallback {} (by norm_num [orZero]) (by norm_num [orZero])
    (by simp) (by norm_num [orZero]) (by norm_num [orZero])

lemma resolveGrowth_pos (info : Info) (eps g : ℚ) (heps : 0 < eps)
    (h : resolveGrowth info eps = some g) : 0 < g := by
  unfold resolveGrowth at h
  rcases heg : info.earningsGrowth with _ | eg <;> rw [heg] at h <;> dsimp only at h
  case none =>
    split_ifs at h with hfwd
    · injection h with h2
      subst h2
      exact div_pos (by linarith [hfwd.2.2]) heps
    · rcases hrg : info.revenueGrowth with _ | rg <;> rw [hrg] at h <;> dsimp only at h
      · exact absurd h (by simp)
      · split_ifs at h with hpos hlt
        · injection h with h2; subst h2; exact hpos
        · injection h with h2; subst h2; positivity
  case some =>
    by_cases hpos : 0 < eg
    · rw [if_pos hpos] at h
      dsimp only at h
      split_ifs at h with hlt
      · injection h with h2; subst h2; exact hpos
      · injection h with h2; subst h2; positivity
    · rw [if_neg hpos] at h
      dsimp only at h
      split_ifs at h with hfwd
      · injection h with h2; subst h2
        exact div_pos (by linarith [hfwd.2.2]) heps
      · rcases hrg : info.revenueGrowth with _ | rg <;> rw [hrg] at h <;> dsimp only at h
        · exact absurd h (by simp)
        · split_ifs at h with hpos2 hlt
          · injection h with h2; subst h2; exact hpos2
          · injection h with h2; subst h2; positivity

lemma sticker_formula_aux (info : Info) (price g0 : ℚ)
    (heps : 0 < orZero info.trailingEps)
    (hg : resolveGrowth info (orZero info.trailingEps) = some g0) :
    ∃ s, calculate_sticker_price info price = some s ∧
      s.eps = orZero info.trailingEps ∧
      s.growth_rate = min g0 (3/10) ∧
      s.future_eps = s.eps * (1 + s.growth_rate) ^ 10 ∧
      s.future_pe = min (2 * s.growth_rate * 100) 50 ∧
      s.future_price = s.future_eps * s.future_pe ∧
      s.sticker_price = s.future_price / (23/20 : ℚ) ^ 10 ∧
      s.mos_price = s.sticker_price / 2 ∧
      s.current_price = price ∧
      0 < s.growth_rate ∧ s.growth_rate ≤ 3/10 ∧
      (price ≤ s.mos_price → s.verdict = .onSale) := by
  have hg0 : 0 < g0 := resolveGrowth_pos info (orZero info.trailingEps) g0 heps hg
  unfold calculate_sticker_price
  rw [if_neg (by push_neg; exact ⟨ne_of_gt heps, heps⟩), hg]
  dsimp only
  rw [if_neg (not_le.mpr hg0)]
  refine ⟨_, rfl, rfl, rfl, rfl, rfl, rfl, rfl, rfl, rfl,
    lt_min hg0 (by norm_num), min_le_right _ _, ?_⟩
  intro h
  dsimp only at h ⊢
  rw [if_pos h]

/-- The concrete sticker-price input of the claim:
EPS 5, earnings growth 0.20. -/
def stickerEx : Info := { trailingEps := some 5, earningsGrowth := some (1/5) }

/-- C4: with positive trailing EPS and a positive resolved growth rate g
(capped at 0.30), the sticker-price calculator satisfies
`future_eps = eps × (1+g)^10`, `future_pe = min(2·g·100, 50)`,
`future_price = future_eps × future_pe`, `sticker = future_price / 1.15^10`,
`mos_price = sticker / 2`, and verdict ON SALE whenever `price ≤ mos_price`;
at eps=5, growth=0.20, price=50 it yields growth 20%, future_eps ≈ 30.96,
future_pe = 40, sticker ≈ 306.1, mos ≈ 153.05, verdict ON SALE. -/
theorem sticker_price_correct (info : Info) (price g0 : ℚ)
    (heps : 0 < orZero info.trailingEps)
    (hg : resolveGrowth info (orZero info.trailingEps) = some g0) :
    (∃ s, calculate_sticker_price info price = some s ∧
      s.eps = orZero info.trailingEps ∧
      s.growth_rate = min g0 (3/10) ∧
      s.future_eps = s.eps * (1 + s.growth_rate) ^ 10 ∧
      s.future_pe = min (2 * s.growth_rate * 100) 50 ∧
      s.future_price = s.future_eps * s.future_pe ∧
      s.sticker_price = s.future_price / (23/20 : ℚ) ^ 10 ∧
      s.mos_price = s.sticker_price / 2 ∧
      0 < s.growth_rate ∧ s.growth_rate ≤ 3/10 ∧
      (price ≤ s.mos_price → s.verdict = .onSale)) ∧
    (∃ t, calculate_sticker_price stickerEx 50 = some t ∧
      t.growth_rate = 1/5 ∧
      t.future_pe = 40 ∧
      |t.future_eps - 3096/100| < 1/100 ∧
      |t.sticker_price - 3061/10| < 1/10 ∧
      |t.mos_price - 15305/100| < 1/20 ∧
      t.verdict = .onSale) := by
  constructor
  · obtain ⟨s, hs, e1, e2, e3, e4, e5, e6, e7, _, e9, e10, e11⟩ :=
      sticker_formula_aux info price g0 heps hg
    exact ⟨s, hs, e1, e2, e3, e4, e5, e6, e7, e9, e10, e11⟩
  · obtain ⟨t, ht, e1, e2, e3, e4, e5, e6, e7, _, _, _, e11⟩ :=
      sticker_formula_aux stickerEx 50 (1/5)
        (by norm_num [stickerEx, orZero])
        (by norm_num [resolveGrowth, stickerEx, orZero])
    have heps5 : t.eps = 5 := by rw [e1]; norm_num [stickerEx, orZero]
    have hgr : t.growth_rate = 1/5 := by rw [e2]; norm_num [min_def]
    have hpe : t.future_pe = 40 := by rw [e4, hgr]; norm_num [min_def]
    have hfe : t.future_eps = 5 * ((1 : ℚ) + 1/5) ^ 10 := by rw [e3, heps5, hgr]
    have hst : t.sticker_price = (5 * ((1 : ℚ) + 1/5) ^ 10 * 40) / (23/20 : ℚ) ^ 10 := by
      rw [e6, e5, hfe, hpe]
    have hmos : t.mos_price = (5 * ((1 : ℚ) + 1/5) ^ 10 * 40) / (23/20 : ℚ) ^ 10 / 2 := by
      rw [e7, hst]
    refine ⟨t, ht, hgr, hpe, ?_, ?_, ?_, ?_⟩
    · rw [hfe, abs_sub_lt_iff]; constructor <;> norm_num
    · rw [hst, abs_sub_lt_iff]; constructor <;> norm_num
    · rw [hmos, abs_sub_lt_iff]; constructor <;> norm_num
    · exact e11 (by rw [hmos]; norm_num)

/-- Witness for `sticker_price_correct` at the claim's concrete input. -/
theorem sticker_price_correct_witness :
    (∃ s, calculate_sticker_price stickerEx 50 = some s ∧
      s.eps = orZero stickerEx.trailingEps ∧
      s.growth_rate = min (1/5) (3/10) ∧
      s.future_eps = s.eps * (1 + s.growth_rate) ^ 10 ∧
      s.future_pe = min (2 * s.growth_rate * 100) 50 ∧
      s.future_price = s.future_eps * s.future_pe ∧
      s.sticker_price = s.future_price / (23/20 : ℚ) ^ 10 ∧
      s.mos_price = s.sticker_price / 2 ∧
      0 < s.growth_rate ∧ s.growth_rate ≤ 3/10 ∧
      ((50 : ℚ) ≤ s.mos_price → s.verdict = .onSale)) ∧
    (∃ t, calculate_sticker_price stickerEx 50 = some t ∧
      t.growth_rate = 1/5 ∧
      t.future_pe = 40 ∧
      |t.future_eps - 3096/100| < 1/100 ∧
      |t.sticker_price - 3061/10| < 1/10 ∧
      |t.mos_price - 15305/100| < 1/20 ∧
      t.verdict = .onSale) :=
  sticker_price_correct stickerEx 50 (1/5)
    (by norm_num [stickerEx, orZero])
    (by norm_num [resolveGrowth, stickerEx, orZero])

/-- The row produced for a ticker whose `info` fetch succeeds with a
positive `currentPrice`. -/
def infoEntry (i : Info) (sym : String) : Entry :=
  let price := orZero i.currentPrice
  let fv := calculate_fair_value i price
  ⟨sym, nameOf i sym, price, calculate_score i price fv, upsideOf price fv⟩

lemma processSymbol_success (p : Provider) (sym : String) (i : Info)
    (h : p.fetchInfo sym = .ok (some i)) (hp : 0 < orZero i.currentPrice) :
    processSymbol p sym = some (infoEntry i sym) := by
  unfold processSymbol tryBody
  rw [h]
  dsimp only
  rw [pyOr, if_neg (ne_of_gt hp), if_neg (ne_of_gt hp)]
  dsimp only
  unfold scoreEntry
  rw [if_neg (ne_of_gt hp)]
  rfl

lemma processSymbol_failure (p : Provider) (sym : String)
    (h1 : p.fetchInfo sym = .error ()) (h2 : p.fetchHist sym = .error ()) :
    processSymbol p sym = none := by
  unfold processSymbol tryBody
  rw [h1]
  dsimp only
  rw [h2]

/-- C6: a per-ticker provider failure never aborts the batch scan and the
failing ticker is skipped: for 5 tickers of which exactly one raises on
every provider call, the output has exactly 4 rows and is sorted in
descending order of score (the loop's `except` recovery makes
`processSymbol`, and hence `scanBatch`, a total function — no exception
reaches the caller). -/
theorem batch_scan_isolation (p : Provider) (a b c d e : String)
    (ia ib idd ie : Info)
    (ha : p.fetchInfo a = .ok (some ia)) (hpa : 0 < orZero ia.currentPrice)
    (hb : p.fetchInfo b = .ok (some ib)) (hpb : 0 < orZero ib.currentPrice)
    (hc1 : p.fetchInfo c = .error ()) (hc2 : p.fetchHist c = .error ())
    (hd : p.fetchInfo d = .ok (some idd)) (hpd : 0 < orZero idd.currentPrice)
    (he : p.fetchInfo e = .ok (some ie)) (hpe : 0 < orZero ie.currentPrice) :
    (scanBatch p [a, b, c, d, e]).length = 4 ∧
    List.Sorted scoreGE (scanBatch p [a, b, c, d, e]) := by
  have hlist : [a, b, c, d, e].filterMap (processSymbol p) =
      [infoEntry ia a, infoEntry ib b, infoEntry idd d, infoEntry ie e] := by
    simp [List.filterMap_cons,
      processSymbol_success p a ia ha hpa,
      processSymbol_success p b ib hb hpb,
      processSymbol_failure p c hc1 hc2,
      processSymbol_success p d idd hd hpd,
      processSymbol_success p e ie he hpe]
  constructor
  · unfold scanBatch
    rw [hlist, List.length_insertionSort]
    rfl
  · exact List.sorted_insertionSort scoreGE _

/-- Witness stock info holding only a current price. -/
def wInfo (n : ℚ) : Info := { currentPrice := some n }

/-- Witness provider: every call for ticker `"C"` raises; the other four
tickers return infos with positive prices. -/
def wProvider : Provider where
  fetchInfo := fun s =>
    if s = "C" then .error ()
    else if s = "A" then .ok (some (wInfo 10))
    else if s = "B" then .ok (some (wInfo 20))
    else if s = "D" then .ok (some (wInfo 30))
    else .ok (some (wInfo 40))
  fetchHist := fun s => if s = "C" then .error () else .ok []

/-- Witness for `batch_scan_isolation`: a concrete 5-ticker batch with the
third ticker's provider calls raising. -/
theorem batch_scan_isolation_witness :
    (scanBatch wProvider ["A", "B", "C", "D", "E"]).length = 4 ∧
    List.Sorted scoreGE (scanBatch wProvider ["A", "B", "C", "D", "E"]) :=
  batch_scan_isolation wProvider "A" "B" "C" "D" "E"
    (wInfo 10) (wInfo 20) (wInfo 30) (wInfo 40)
    (by simp [wProvider]) (by norm_num [wInfo, orZero])
    (by simp [wProvider]) (by norm_num [wInfo, orZero])
    (by simp [wProvider]) (by simp [wProvider])
    (by simp [wProvider]) (by norm_num [wInfo, orZero])
    (by simp [wProvider]) (by norm_num [wInfo, orZero])
